import Mathlib

/-!
Verification development for the libdns Leaseweb provider.

The embedding below follows the Go sources of the repository:
helpers.go (the record model translator), models.go (the vendor data
model), client.go (the HTTP request builders) and the provider file
(the four public operations GetRecords, AppendRecords, SetRecords,
DeleteRecords).  Pure functions are translated directly; the HTTP layer
is modelled by recording the requests an operation would issue on its
success path, with the parse result of the remote listing supplied as a
parameter.
-/

namespace Libdns

/-- Generic libdns record.  Fields mirror the Go struct libdns.Record
(Name, Type, Value, TTL).  The TTL is modelled as the whole-second value
that the Go code obtains as int(record.TTL.Seconds()), which is the only
view of the TTL the program ever uses. -/
structure Record where
  name : String
  type : String
  value : String
  ttl : Int
deriving DecidableEq, Inhabited, Repr

end Libdns

/-- Vendor record set, mirroring the Go struct leasewebRecordSet in
models.go (fields Name, Type, Content, TTL). -/
structure leasewebRecordSet where
  name : String
  type : String
  content : List String
  ttl : Int
deriving DecidableEq, Inhabited, Repr

/-- Response wrapper for the vendor list endpoint, mirroring the Go
struct leasewebRecordSets in models.go. -/
structure leasewebRecordSets where
  resourceRecordSets : List leasewebRecordSet
deriving DecidableEq, Inhabited, Repr

/-- Model of the Go standard library function strings.TrimSuffix: drop
the given trailing suffix when present, otherwise return the string
unchanged. -/
def goTrimSuffix (s suff : String) : String :=
  if suff.data.isSuffixOf s.data then
    String.mk (s.data.take (s.data.length - suff.data.length))
  else s

/-- TTL whitelist from helpers.go, variable supportedTTLs. -/
def supportedTTLs : List Int := [60, 300, 1800, 3600, 14400, 28800, 43200, 86400]

/-- Inner scan of fromLibdns in helpers.go (the otherIdx loop): for the
current record set with canonical name setName, type setType and
effective TTL setTTL, walk every index j of the input, skip the current
index, and on a raw-name and type match mark j consumed, record a TTL
conflict message when the raw TTL of j differs from setTTL, and append
the value of j to the content being built. -/
def fromLibdnsInner (records : List Libdns.Record) (currentIdx : Nat)
    (setName setType : String) (setTTL : Int) :
    List Nat → List Bool → List String → List String →
    List Bool × List String × List String
  | [], consumed, errs, content => (consumed, errs, content)
  | j :: js, consumed, errs, content =>
    if j = currentIdx then
      fromLibdnsInner records currentIdx setName setType setTTL js consumed errs content
    else
      let other := records.getD j default
      if other.name = setName ∧ other.type = setType then
        let otherTTL := other.ttl
        let errs2 :=
          if otherTTL ≠ setTTL then
            errs ++ ["Found different TTL values for " ++ setName ++ ": " ++
              toString setTTL ++ " and " ++ toString otherTTL ++ "."]
          else errs
        fromLibdnsInner records currentIdx setName setType setTTL js
          (consumed.set j true) errs2 (content ++ [other.value])
      else
        fromLibdnsInner records currentIdx setName setType setTTL js consumed errs content

/-- Outer scan of fromLibdns in helpers.go (the currentIdx loop): each
index not yet consumed starts a new record set; its name is cleaned by
trimming the zone and then the dot-stripped zone from the raw name and
re-appending the zone, its TTL falls back to the head of the whitelist
when unsupported, and the inner scan collects the remaining members. -/
def fromLibdnsOuter (zone : String) (records : List Libdns.Record) :
    List Nat → List Bool → List String → List leasewebRecordSet →
    List String × List leasewebRecordSet
  | [], _, errs, sets => (errs, sets)
  | i :: is, consumed, errs, sets =>
    if consumed.getD i false then
      fromLibdnsOuter zone records is consumed errs sets
    else
      let current := records.getD i default
      let domainName := goTrimSuffix zone "."
      let recordName := goTrimSuffix (goTrimSuffix current.name zone) domainName ++ "." ++ zone
      let recordTTL :=
        if supportedTTLs.contains current.ttl then current.ttl else supportedTTLs.headD 0
      match fromLibdnsInner records i recordName current.type recordTTL
          (List.range records.length) (consumed.set i true) errs [current.value] with
      | (consumed2, errs2, content) =>
        fromLibdnsOuter zone records is consumed2 errs2
          (sets ++ [⟨recordName, current.type, content, recordTTL⟩])

/-- Translator from generic records to vendor record sets, function
fromLibdns in helpers.go.  On validation errors the Go code returns a
nil slice and one combined error built from the collected messages; the
error case is modelled as the list of collected messages. -/
def fromLibdns (zone : String) (records : List Libdns.Record) :
    Except (List String) (List leasewebRecordSet) :=
  match fromLibdnsOuter zone records (List.range records.length)
      (List.replicate records.length false) [] [] with
  | (errs, sets) => if errs.isEmpty then .ok sets else .error errs

/-- Translator from vendor record sets back to generic records, function
fromLeaseweb in helpers.go: each content value of each set becomes one
generic record, sets in input order, values within a set in input order. -/
def fromLeaseweb (recordSets : leasewebRecordSets) : List Libdns.Record :=
  recordSets.resourceRecordSets.flatMap
    (fun s => s.content.map (fun c => ⟨s.name, s.type, c, s.ttl⟩))

/-- HTTP method of an outbound request. -/
inductive HttpMethod
  | get
  | post
  | put
  | delete
deriving DecidableEq, Repr

/-- Outbound request as the operations build it: a method and the full
request URL.  The body and the authentication header carry no
information the claims are about and are not modelled. -/
structure HttpRequest where
  method : HttpMethod
  url : String
deriving DecidableEq, Repr

/-- URL of the record set collection for a domain, as formatted by the
list and create request builders in client.go. -/
def resourceRecordSetsURL (domainName : String) : String :=
  "https://api.leaseweb.com/hosting/v2/domains/" ++ domainName ++ "/resourceRecordSets"

/-- URL of one record set, as formatted by the update builder in
client.go and the delete builder in the provider file: the collection
URL followed by the set name and type as path segments. -/
def recordSetItemURL (domainName name type : String) : String :=
  resourceRecordSetsURL domainName ++ "/" ++ name ++ "/" ++ type

/-- Parse step of listRecordSets in client.go on a 2xx response: the Go
code calls json.Unmarshal on the body and discards its error, so an
unparseable or empty body leaves the zero value, meaning no record sets.
The parameter carries the parse outcome of the remote body; none stands
for a body that does not parse as the expected JSON shape. -/
def listRecordSets (parsed : Option leasewebRecordSets) : leasewebRecordSets :=
  match parsed with
  | some recordSets => recordSets
  | none => ⟨[]⟩

/-- Value returned by updateRecordSet in client.go on a 2xx response:
the Go code never reads the PUT response body and returns the empty
leasewebRecordSets value. -/
def updateRecordSetResponse : leasewebRecordSets := ⟨[]⟩

/-- GetRecords of the provider file, on the path where the remote call
yields a 2xx status: trim the trailing dot from the zone, list the
record sets of the domain and flatten them with fromLeaseweb.  The
result carries the issued requests alongside the returned records. -/
def GetRecords (parsed : Option leasewebRecordSets) (zone : String) :
    Except (List String) (List HttpRequest × List Libdns.Record) :=
  let domainName := goTrimSuffix zone "."
  let recordSets := listRecordSets parsed
  .ok ([⟨.get, resourceRecordSetsURL domainName⟩], fromLeaseweb recordSets)

/-- AppendRecords of the provider file, on the path where every remote
call yields a 2xx status: translate, create one set per group via
createRecordSet (which trims the zone itself), and echo the input
records as the added records. -/
def AppendRecords (zone : String) (records : List Libdns.Record) :
    Except (List String) (List HttpRequest × List Libdns.Record) :=
  match fromLibdns zone records with
  | .error e => .error e
  | .ok recordSets =>
    .ok (recordSets.map (fun _ => ⟨.post, resourceRecordSetsURL (goTrimSuffix zone ".")⟩),
      records)

/-- Existence scan of SetRecords in the provider file: fold over the
flattened prior listing, setting the flag when a record with the same
name and type as the translated set is seen. -/
def hasExistingMatch (existingRecords : List Libdns.Record)
    (recordSet : leasewebRecordSet) : Bool :=
  existingRecords.foldl
    (fun acc existingRecord =>
      if existingRecord.name = recordSet.name ∧ existingRecord.type = recordSet.type then
        true
      else acc)
    false

/-- Per-set loop of SetRecords in the provider file.  A set with an
existing match goes to updateRecordSet — note that SetRecords passes the
raw zone as the domainName argument, which the update URL uses
unmodified — and the flattened update response is appended to the
returned records; a set without a match goes to createRecordSet (which
trims the zone itself) and contributes nothing. -/
def SetRecordsLoop (zone : String) (existingRecords : List Libdns.Record) :
    List leasewebRecordSet → List HttpRequest → List Libdns.Record →
    List HttpRequest × List Libdns.Record
  | [], reqs, updatedRecords => (reqs, updatedRecords)
  | recordSet :: rest, reqs, updatedRecords =>
    if hasExistingMatch existingRecords recordSet then
      SetRecordsLoop zone existingRecords rest
        (reqs ++ [⟨.put, recordSetItemURL zone recordSet.name recordSet.type⟩])
        (updatedRecords ++ fromLeaseweb updateRecordSetResponse)
    else
      SetRecordsLoop zone existingRecords rest
        (reqs ++ [⟨.post, resourceRecordSetsURL (goTrimSuffix zone ".")⟩])
        updatedRecords

/-- SetRecords of the provider file, on the path where every remote call
yields a 2xx status: list the existing sets of the domain, translate the
input, then walk the translated sets deciding update versus create
against the flattened prior listing. -/
def SetRecords (parsed : Option leasewebRecordSets) (zone : String)
    (records : List Libdns.Record) :
    Except (List String) (List HttpRequest × List Libdns.Record) :=
  let domainName := goTrimSuffix zone "."
  let existingRecordSets := listRecordSets parsed
  match fromLibdns zone records with
  | .error e => .error e
  | .ok recordSets =>
    let existingRecords := fromLeaseweb existingRecordSets
    match SetRecordsLoop zone existingRecords recordSets
        [⟨.get, resourceRecordSetsURL domainName⟩] [] with
    | (reqs, updatedRecords) => .ok (reqs, updatedRecords)

/-- Per-set loop of DeleteRecords in the provider file.  The Go code
checks the translation error inside the loop over the translated sets,
so the check runs once per set and not at all when the set list is
empty. -/
def DeleteRecordsLoop (domainName : String) (translationError : Option (List String)) :
    List leasewebRecordSet → List HttpRequest →
    Except (List String) (List HttpRequest)
  | [], reqs => .ok reqs
  | recordSet :: rest, reqs =>
    match translationError with
    | some e => .error e
    | none =>
      DeleteRecordsLoop domainName translationError rest
        (reqs ++ [⟨.delete, recordSetItemURL domainName recordSet.name recordSet.type⟩])

/-- DeleteRecords of the provider file, on the path where every remote
call yields a 2xx status.  The Go call recordSets, err := fromLibdns(...)
yields a nil slice together with the error when translation fails, and
the error is only inspected inside the loop over that slice; on full
success the input records are echoed as the deleted records. -/
def DeleteRecords (zone : String) (records : List Libdns.Record) :
    Except (List String) (List HttpRequest × List Libdns.Record) :=
  let domainName := goTrimSuffix zone "."
  let translated := fromLibdns zone records
  let recordSets := match translated with | .ok sets => sets | .error _ => []
  let translationError := match translated with | .ok _ => none | .error e => some e
  match DeleteRecordsLoop domainName translationError recordSets [] with
  | .error e => .error e
  | .ok reqs => .ok (reqs, records)

deriving instance DecidableEq for Except

/-- Specification-side reading of the upsert match, modelled from the
spec words for SetRecords: a translated set is matched by the prior
listing when some record of the flattened listing carries the same name
and type.  To be compared with hasExistingMatch from the code. -/
def listedSetMatches (listed : leasewebRecordSets) (s : leasewebRecordSet) : Bool :=
  (fromLeaseweb listed).any (fun r => decide (r.name = s.name ∧ r.type = s.type))

theorem hasExistingMatch_foldl (s : leasewebRecordSet) (l : List Libdns.Record)
    (acc : Bool) :
    l.foldl
        (fun acc existingRecord =>
          if existingRecord.name = s.name ∧ existingRecord.type = s.type then true
          else acc) acc =
      (acc || l.any (fun r => decide (r.name = s.name ∧ r.type = s.type))) := by
  induction l generalizing acc with
  | nil => simp
  | cons r rest ih =>
    simp only [List.foldl_cons, List.any_cons]
    by_cases h : r.name = s.name ∧ r.type = s.type
    · rw [if_pos h, ih, decide_eq_true h]
      simp
    · rw [if_neg h, ih, decide_eq_false h]
      simp

theorem hasExistingMatch_eq_listedSetMatches (listed : leasewebRecordSets)
    (s : leasewebRecordSet) :
    hasExistingMatch (fromLeaseweb listed) s = listedSetMatches listed s := by
  unfold hasExistingMatch listedSetMatches
  rw [hasExistingMatch_foldl]
  simp

theorem SetRecordsLoop_spec (zone : String) (ex : List Libdns.Record)
    (sets : List leasewebRecordSet) (reqs : List HttpRequest)
    (upd : List Libdns.Record) :
    SetRecordsLoop zone ex sets reqs upd =
      (reqs ++ sets.map (fun s =>
          if hasExistingMatch ex s then
            (⟨.put, recordSetItemURL zone s.name s.type⟩ : HttpRequest)
          else ⟨.post, resourceRecordSetsURL (goTrimSuffix zone ".")⟩),
       upd ++ (sets.filter (fun s => hasExistingMatch ex s)).flatMap
          (fun _ => fromLeaseweb updateRecordSetResponse)) := by
  induction sets generalizing reqs upd with
  | nil => simp [SetRecordsLoop]
  | cons s rest ih =>
    by_cases h : hasExistingMatch ex s <;>
      simp [SetRecordsLoop, h, ih, List.filter_cons]

/-- C1: the claim says generic records sharing a merge-group key of
canonical name and type collapse into exactly one record set; on the
spec example of two bare-named TXT records the code instead produces two
record sets, because the inner scan compares the raw name of the other
record against the canonicalized set name, so the two members of the
group never meet. -/
theorem merge_group_not_collapsed_on_bare_names :
    fromLibdns "example.com." [⟨"a", "TXT", "x", 300⟩, ⟨"a", "TXT", "y", 300⟩] =
      .ok [⟨"a.example.com.", "TXT", ["x"], 300⟩, ⟨"a.example.com.", "TXT", ["y"], 300⟩] ∧
    fromLibdns "example.com." [⟨"a", "TXT", "x", 300⟩, ⟨"a", "TXT", "y", 300⟩] ≠
      .ok [⟨"a.example.com.", "TXT", ["x", "y"], 300⟩] := by
  constructor
  · rfl
  · decide

/-- C2: the claim says the bare, zone-qualified and fully-qualified
forms of a name all normalize to the same canonical vendor name; the
code yields the canonical name only for the bare form and produces a
double dot for the two qualified forms, because trimming the zone
suffixes leaves the separating dot on the prefix and the format string
inserts another one. -/
theorem name_normalization_double_dot :
    fromLibdns "example.com." [⟨"sub", "TXT", "v", 300⟩] =
      .ok [⟨"sub.example.com.", "TXT", ["v"], 300⟩] ∧
    fromLibdns "example.com." [⟨"sub.example.com", "TXT", "v", 300⟩] =
      .ok [⟨"sub..example.com.", "TXT", ["v"], 300⟩] ∧
    fromLibdns "example.com." [⟨"sub.example.com.", "TXT", "v", 300⟩] =
      .ok [⟨"sub..example.com.", "TXT", ["v"], 300⟩] ∧
    ("sub..example.com." : String) ≠ "sub.example.com." := by
  refine ⟨rfl, rfl, rfl, ?_⟩
  decide

/-- C3: the claim says two records of one merge group with differing
TTLs make the whole call fail with a combined validation error and no
record sets; on the spec example with bare names the code never groups
the two records, reports no error and returns two record sets. -/
theorem ttl_conflict_not_detected_for_bare_names :
    fromLibdns "example.com." [⟨"a", "TXT", "x", 300⟩, ⟨"a", "TXT", "y", 3600⟩] =
      .ok [⟨"a.example.com.", "TXT", ["x"], 300⟩, ⟨"a.example.com.", "TXT", ["y"], 3600⟩] := by
  rfl

/-- C4: the claim says every unsupported requested TTL, including zero,
is replaced by the whitelist minimum 60 instead of failing.  The
substitution does hold for the record that starts a set, but a record
merged into an existing set keeps its raw TTL for the conflict
comparison, so a group whose two members both request the unsupported
TTL 0 makes the whole call fail with a conflict between 60 and 0. -/
theorem unsupported_ttl_in_group_fails_call :
    fromLibdns "example.com." [⟨"a", "TXT", "x", 0⟩] =
      .ok [⟨"a.example.com.", "TXT", ["x"], 60⟩] ∧
    fromLibdns "example.com." [⟨"a", "TXT", "x", 300⟩] =
      .ok [⟨"a.example.com.", "TXT", ["x"], 300⟩] ∧
    fromLibdns "example.com." [⟨"a", "TXT", "x", 0⟩, ⟨"a.example.com.", "TXT", "y", 0⟩] =
      .error ["Found different TTL values for a.example.com.: 60 and 0."] := by
  exact ⟨rfl, rfl, rfl⟩

/-- C5: the claim says that for inputs with pairwise distinct name and
type pairs and whitelist TTLs, flattening the translated sets reproduces
the input tuples.  On an input of two records with distinct names, one
fully qualified and one bare, the code groups the bare leader with the
qualified record while the qualified leader also emits its own set, so
the flattened output holds three records and the value x appears twice. -/
theorem round_trip_duplicates_value :
    fromLibdns "example.com." [⟨"a.example.com.", "TXT", "x", 300⟩, ⟨"a", "TXT", "y", 300⟩] =
      .ok [⟨"a..example.com.", "TXT", ["x"], 300⟩, ⟨"a.example.com.", "TXT", ["y", "x"], 300⟩] ∧
    fromLeaseweb ⟨[⟨"a..example.com.", "TXT", ["x"], 300⟩,
        ⟨"a.example.com.", "TXT", ["y", "x"], 300⟩]⟩ =
      [⟨"a..example.com.", "TXT", "x", 300⟩, ⟨"a.example.com.", "TXT", "y", 300⟩,
        ⟨"a.example.com.", "TXT", "x", 300⟩] := by
  exact ⟨rfl, rfl⟩

/-- C6 counterexample: the prior listing holds a set with the same name
and type as the translated set but with empty content; the claim then
demands an update request, yet the operation issues a create, because
the match is computed against the flattened listing in which an
empty-content set leaves no record. -/
theorem upsert_branching_counterexample :
    (∃ s ∈ (leasewebRecordSets.mk [⟨"a.example.com.", "A", [], 60⟩]).resourceRecordSets,
        s.name = "a.example.com." ∧ s.type = "A") ∧
    fromLibdns "example.com." [⟨"a", "A", "1.2.3.4", 300⟩] =
      .ok [⟨"a.example.com.", "A", ["1.2.3.4"], 300⟩] ∧
    SetRecords (some ⟨[⟨"a.example.com.", "A", [], 60⟩]⟩) "example.com."
        [⟨"a", "A", "1.2.3.4", 300⟩] =
      .ok ([⟨.get, "https://api.leaseweb.com/hosting/v2/domains/example.com/resourceRecordSets"⟩,
            ⟨.post, "https://api.leaseweb.com/hosting/v2/domains/example.com/resourceRecordSets"⟩],
        []) := by
  refine ⟨?_, rfl, rfl⟩
  exact ⟨⟨"a.example.com.", "A", [], 60⟩, by simp⟩

/-- C6 amended: a translated record set is sent as an update exactly
when some record of the flattened prior listing carries its name and
type (so a listed set with empty content matches nothing and leads to a
create), updates append the flattened update response to the returned
list, and creates contribute nothing. -/
theorem upsert_branching_flattened (listed : leasewebRecordSets) (zone : String)
    (records : List Libdns.Record) (sets : List leasewebRecordSet)
    (h : fromLibdns zone records = .ok sets) :
    SetRecords (some listed) zone records =
      .ok (⟨.get, resourceRecordSetsURL (goTrimSuffix zone ".")⟩ ::
            sets.map (fun s =>
              if listedSetMatches listed s then
                (⟨.put, recordSetItemURL zone s.name s.type⟩ : HttpRequest)
              else ⟨.post, resourceRecordSetsURL (goTrimSuffix zone ".")⟩),
          (sets.filter (fun s => listedSetMatches listed s)).flatMap
            (fun _ => fromLeaseweb updateRecordSetResponse)) ∧
    (∀ s, listedSetMatches listed s = true ↔
      ∃ r ∈ fromLeaseweb listed, r.name = s.name ∧ r.type = s.type) := by
  constructor
  · unfold SetRecords
    rw [h]
    dsimp only [listRecordSets]
    rw [SetRecordsLoop_spec]
    have hfun : hasExistingMatch (fromLeaseweb listed) = listedSetMatches listed := by
      funext s
      exact hasExistingMatch_eq_listedSetMatches listed s
    rw [hfun]
    simp
  · intro s
    simp [listedSetMatches, List.any_eq_true]

/-- C6 witness: a concrete update case, with a listed set whose content
is nonempty, goes through the update branch of the amended theorem. -/
theorem upsert_branching_flattened_witness :
    SetRecords (some ⟨[⟨"a.example.com.", "TXT", ["old"], 60⟩]⟩) "example.com."
        [⟨"a", "TXT", "new", 300⟩] =
      .ok ([⟨.get, "https://api.leaseweb.com/hosting/v2/domains/example.com/resourceRecordSets"⟩,
            ⟨.put, "https://api.leaseweb.com/hosting/v2/domains/example.com./resourceRecordSets/a.example.com./TXT"⟩],
        []) ∧
    (∀ s, listedSetMatches ⟨[⟨"a.example.com.", "TXT", ["old"], 60⟩]⟩ s = true ↔
      ∃ r ∈ fromLeaseweb ⟨[⟨"a.example.com.", "TXT", ["old"], 60⟩]⟩,
        r.name = s.name ∧ r.type = s.type) :=
  upsert_branching_flattened ⟨[⟨"a.example.com.", "TXT", ["old"], 60⟩]⟩ "example.com."
    [⟨"a", "TXT", "new", 300⟩] [⟨"a.example.com.", "TXT", ["new"], 300⟩] rfl

/-- C7: the claim says every outbound URL uses the zone with the
trailing dot stripped as domain path segment, including the update
request inside SetRecords.  The update branch of SetRecords passes the
raw zone to updateRecordSet, whose domainName parameter goes into the
URL unmodified, so the update URL keeps the trailing dot of the zone
while the listing URL of the same call strips it. -/
theorem update_url_keeps_zone_dot :
    SetRecords (some ⟨[⟨"a.example.com.", "TXT", ["old"], 60⟩]⟩) "example.com."
        [⟨"a", "TXT", "new", 300⟩] =
      .ok ([⟨.get, "https://api.leaseweb.com/hosting/v2/domains/example.com/resourceRecordSets"⟩,
            ⟨.put, "https://api.leaseweb.com/hosting/v2/domains/example.com./resourceRecordSets/a.example.com./TXT"⟩],
        []) ∧
    recordSetItemURL "example.com." "a.example.com." "TXT" ≠
      recordSetItemURL (goTrimSuffix "example.com." ".") "a.example.com." "TXT" := by
  refine ⟨rfl, ?_⟩
  decide

/-- C8: the claim says every error, including a translation error in
DeleteRecords, is surfaced to the caller.  On a TTL conflict the
translator fails, but DeleteRecords checks the error only inside the
loop over the translated sets, which is empty in that case, so the call
issues no request, reports success and echoes all input records as
deleted. -/
theorem delete_records_swallows_translation_error :
    fromLibdns "example.com." [⟨"b", "TXT", "x", 300⟩, ⟨"b.example.com.", "TXT", "y", 3600⟩] =
      .error ["Found different TTL values for b.example.com.: 300 and 3600."] ∧
    DeleteRecords "example.com." [⟨"b", "TXT", "x", 300⟩, ⟨"b.example.com.", "TXT", "y", 3600⟩] =
      .ok ([], [⟨"b", "TXT", "x", 300⟩, ⟨"b.example.com.", "TXT", "y", 3600⟩]) := by
  exact ⟨rfl, rfl⟩

/-- C9: when the body of the remote listing does not parse as the
expected JSON shape, GetRecords and the pre-listing inside SetRecords
succeed with the listing treated as empty, and SetRecords then issues a
create for every translated set and returns the empty record list. -/
theorem unparseable_listing_treated_as_empty (zone : String)
    (records : List Libdns.Record) (sets : List leasewebRecordSet)
    (h : fromLibdns zone records = .ok sets) :
    GetRecords none zone =
      .ok ([⟨.get, resourceRecordSetsURL (goTrimSuffix zone ".")⟩], []) ∧
    SetRecords none zone records =
      .ok (⟨.get, resourceRecordSetsURL (goTrimSuffix zone ".")⟩ ::
            sets.map (fun _ => ⟨.post, resourceRecordSetsURL (goTrimSuffix zone ".")⟩),
        []) := by
  constructor
  · rfl
  · unfold SetRecords
    rw [h]
    dsimp only [listRecordSets]
    rw [SetRecordsLoop_spec]
    simp [hasExistingMatch, fromLeaseweb]

/-- C9 witness: a concrete zone and a single record go through the
create branch when the listing body is unparseable. -/
theorem unparseable_listing_treated_as_empty_witness :
    GetRecords none "example.com." =
      .ok ([⟨.get, "https://api.leaseweb.com/hosting/v2/domains/example.com/resourceRecordSets"⟩],
        []) ∧
    SetRecords none "example.com." [⟨"a", "TXT", "x", 300⟩] =
      .ok ([⟨.get, "https://api.leaseweb.com/hosting/v2/domains/example.com/resourceRecordSets"⟩,
            ⟨.post, "https://api.leaseweb.com/hosting/v2/domains/example.com/resourceRecordSets"⟩],
        []) :=
  unparseable_listing_treated_as_empty "example.com." [⟨"a", "TXT", "x", 300⟩]
    [⟨"a.example.com.", "TXT", ["x"], 300⟩] rfl
